import Mathlib

/-!
Verification of the whiteboard canvas interaction engine (Whiteboard.js).

The JavaScript source is shallowly embedded: shapes are records with
optional fields mirroring the duck-typed JS objects, JS numbers are modelled
as exact rationals, `localStorage` is a single optional JSON value, and the
`fetch` calls fired by an event handler are collected in an effect list.
JS truthiness of `a || b` on numbers (where 0 is falsy) and on strings
(where "" is falsy) is modelled explicitly.
-/

/-- Point in canvas space, as produced by getPointerPos. -/
structure Point where
  x : ℚ
  y : ℚ
  deriving DecidableEq

/-- A shape record: `\x7b id, type, x, y, pageId, ... \x7d` with the optional
variant-specific fields a Whiteboard shape object may carry. An absent JS
field is `none`. -/
structure Shape where
  id : String
  type : String
  x : ℚ
  y : ℚ
  pageId : String
  width : Option ℚ := none
  height : Option ℚ := none
  radius : Option ℚ := none
  x2 : Option ℚ := none
  y2 : Option ℚ := none
  points : Option (List Point) := none
  content : Option String := none
  fontSize : Option ℚ := none
  fontFamily : Option String := none
  color : Option String := none
  deriving DecidableEq

/-- JS `v || d` for a numeric field: `undefined` and `0` are falsy. -/
def jsOrNum (v : Option ℚ) (d : ℚ) : ℚ :=
  match v with
  | some q => if q = 0 then d else q
  | none => d

/-- JS `v || d` for a string field: `undefined` and `""` are falsy. -/
def jsOrStr (v : Option String) (d : String) : String :=
  match v with
  | some s => if s = "" then d else s
  | none => d

/-- Decimal digit character, as in the JS rendering of a nonnegative integer. -/
def digitChar : Nat → Char
  | 0 => '0'
  | 1 => '1'
  | 2 => '2'
  | 3 => '3'
  | 4 => '4'
  | 5 => '5'
  | 6 => '6'
  | 7 => '7'
  | 8 => '8'
  | 9 => '9'
  | _ => '*'

/-- Decimal digit list (most significant first) of a natural number, the model
of JS number-to-string conversion for the integers used in `uid`. -/
def natChars (n : Nat) : List Char :=
  if h : n < 10 then [digitChar n]
  else natChars (n / 10) ++ [digitChar (n % 10)]
decreasing_by
  exact Nat.div_lt_self (Nat.pos_of_ne_zero (by omega)) (by omega)

/-- Decimal rendering of a natural number as a string. -/
def natRepr (n : Nat) : String :=
  String.mk (natChars n)

/-- Model of `uid(prefix)`: `prefix + '_' + Date.now() + '_' +
Math.floor(Math.random() * 1000)`. The millisecond clock reading `t` and the
random draw `r` are explicit inputs of the model. -/
def uid (pre : String) (t : Nat) (r : Nat) : String :=
  pre ++ "_" ++ natRepr t ++ "_" ++ natRepr r

/-- Model of `addShape(type)` value construction: the base record gets
`id`, `type`, a randomized position (random draws `rx`, `ry` in `[0,1)` are
explicit inputs) and `pageId`, then the per-type conditionals add fields. -/
def addShape (type : String) (pageId : String) (t r : Nat) (rx ry : ℚ) : Shape :=
  let s0 : Shape :=
    { id := uid "shape" t r, type := type,
      x := 100 + rx * 200, y := 80 + ry * 200, pageId := pageId }
  let s1 := if type = "circle" then { s0 with radius := some 30 } else s0
  let s2 := if type = "line" ∨ type = "arrow" then
      { s1 with x2 := some (s1.x + 80), y2 := some (s1.y + 0) } else s1
  let s3 := if type = "text" then
      { s2 with content := some "Text", fontSize := some 16 } else s2
  s3

/-!
JSON layer. `localStorage.setItem('shapes', JSON.stringify(next))` and
`JSON.parse(saved)` are modelled at the level of JSON trees: `Json` is the
parsed form of the stored string (the stringify/parse text layer of the
platform is assumed faithful). `JSON.stringify` omits `undefined` object
fields, so an absent (`none`) field is simply not emitted.
-/

/-- Parsed JSON value. -/
inductive Json where
  | str (s : String)
  | num (q : ℚ)
  | arr (elems : List Json)
  | obj (fields : List (String × Json))

/-- Lookup of an object field by key (first binding wins). -/
def getField : List (String × Json) → String → Option Json
  | [], _ => none
  | (k, v) :: rest, key => if k = key then some v else getField rest key

/-- Numeric JSON value, if any. -/
def asNum : Json → Option ℚ
  | .num q => some q
  | _ => none

/-- String JSON value, if any. -/
def asStr : Json → Option String
  | .str s => some s
  | _ => none

/-- Encoding of a stroke point. -/
def encodePoint (p : Point) : Json :=
  .obj [("x", .num p.x), ("y", .num p.y)]

/-- Decoding of a stroke point. -/
def decodePoint (j : Json) : Option Point :=
  match j with
  | .obj f =>
    match (getField f "x").bind asNum, (getField f "y").bind asNum with
    | some x, some y => some ⟨x, y⟩
    | _, _ => none
  | _ => none

/-- Encoding of a pencil point list. -/
def encodePoints (ps : List Point) : Json :=
  .arr (ps.map encodePoint)

/-- Decoding of a list of JSON values as stroke points. -/
def decodePointList : List Json → Option (List Point)
  | [] => some []
  | j :: rest =>
    match decodePoint j, decodePointList rest with
    | some p, some ps => some (p :: ps)
    | _, _ => none

/-- A field that `JSON.stringify` emits only when the JS value is defined. -/
def optField (k : String) (v : Option Json) : List (String × Json) :=
  match v with
  | some j => [(k, j)]
  | none => []

/-- Object fields emitted for a shape: the always-present fields followed by
whichever optional fields the record carries. -/
def encodeFields (s : Shape) : List (String × Json) :=
  ("id", .str s.id) :: ("type", .str s.type) :: ("x", .num s.x) ::
  ("y", .num s.y) :: ("pageId", .str s.pageId) ::
  (optField "width" (s.width.map .num) ++
   optField "height" (s.height.map .num) ++
   optField "radius" (s.radius.map .num) ++
   optField "x2" (s.x2.map .num) ++
   optField "y2" (s.y2.map .num) ++
   optField "points" (s.points.map encodePoints) ++
   optField "content" (s.content.map .str) ++
   optField "fontSize" (s.fontSize.map .num) ++
   optField "fontFamily" (s.fontFamily.map .str) ++
   optField "color" (s.color.map .str))

/-- Encoding of one shape as a JSON object. -/
def encodeShape (s : Shape) : Json :=
  .obj (encodeFields s)

/-- Decoding of the optional `points` field. -/
def decodeOptPoints (j : Option Json) : Option (Option (List Point)) :=
  match j with
  | none => some none
  | some (.arr xs) => (decodePointList xs).map some
  | some _ => none

/-- Decoding of one shape from a JSON object. -/
def decodeShape (j : Json) : Option Shape :=
  match j with
  | .obj f =>
    match (getField f "id").bind asStr, (getField f "type").bind asStr,
          (getField f "x").bind asNum, (getField f "y").bind asNum,
          (getField f "pageId").bind asStr,
          decodeOptPoints (getField f "points") with
    | some id, some type, some x, some y, some pageId, some points =>
      some { id := id, type := type, x := x, y := y, pageId := pageId,
             width := (getField f "width").bind asNum,
             height := (getField f "height").bind asNum,
             radius := (getField f "radius").bind asNum,
             x2 := (getField f "x2").bind asNum,
             y2 := (getField f "y2").bind asNum,
             points := points,
             content := (getField f "content").bind asStr,
             fontSize := (getField f "fontSize").bind asNum,
             fontFamily := (getField f "fontFamily").bind asStr,
             color := (getField f "color").bind asStr }
    | _, _, _, _, _, _ => none
  | _ => none

/-- Encoding of the whole shape list, the value stored under the fixed
`'shapes'` cache key. -/
def encodeShapes (l : List Shape) : Json :=
  .arr (l.map encodeShape)

/-- Decoding of a list of JSON values as shapes. -/
def decodeShapeList : List Json → Option (List Shape)
  | [] => some []
  | j :: rest =>
    match decodeShape j, decodeShapeList rest with
    | some s, some l => some (s :: l)
    | _, _ => none

/-- Decoding of the cached shape-list value. -/
def decodeShapes : Json → Option (List Shape)
  | .arr xs => decodeShapeList xs
  | _ => none

lemma getField_optField_append_ne (k' k : String) (v : Option Json)
    (rest : List (String × Json)) (h : k' ≠ k) :
    getField (optField k' v ++ rest) k = getField rest k := by
  cases v <;> simp [optField, getField, h]

lemma getField_optField_ne (k' k : String) (v : Option Json) (h : k' ≠ k) :
    getField (optField k' v) k = none := by
  cases v <;> simp [optField, getField, h]

lemma getField_optField_append_some (k : String) (j : Json)
    (rest : List (String × Json)) :
    getField (optField k (some j) ++ rest) k = some j := by
  simp [optField, getField]

lemma getField_optField_append_none (k : String) (rest : List (String × Json)) :
    getField (optField k none ++ rest) k = getField rest k := rfl

lemma getField_optField_some (k : String) (j : Json) :
    getField (optField k (some j)) k = some j := by
  simp [optField, getField]

lemma asNum_num (q : ℚ) : asNum (Json.num q) = some q := rfl

lemma asStr_str (s : String) : asStr (Json.str s) = some s := rfl

lemma gf_width (s : Shape) :
    getField (encodeFields s) "width" = s.width.map Json.num := by
  cases h : s.width <;>
    simp [encodeFields, getField, h,
      getField_optField_append_ne, getField_optField_ne,
      getField_optField_append_some, getField_optField_append_none,
      getField_optField_some]

lemma gf_height (s : Shape) :
    getField (encodeFields s) "height" = s.height.map Json.num := by
  cases h : s.height <;>
    simp [encodeFields, getField, h,
      getField_optField_append_ne, getField_optField_ne,
      getField_optField_append_some, getField_optField_append_none,
      getField_optField_some]

lemma gf_radius (s : Shape) :
    getField (encodeFields s) "radius" = s.radius.map Json.num := by
  cases h : s.radius <;>
    simp [encodeFields, getField, h,
      getField_optField_append_ne, getField_optField_ne,
      getField_optField_append_some, getField_optField_append_none,
      getField_optField_some]

lemma gf_x2 (s : Shape) :
    getField (encodeFields s) "x2" = s.x2.map Json.num := by
  cases h : s.x2 <;>
    simp [encodeFields, getField, h,
      getField_optField_append_ne, getField_optField_ne,
      getField_optField_append_some, getField_optField_append_none,
      getField_optField_some]

lemma gf_y2 (s : Shape) :
    getField (encodeFields s) "y2" = s.y2.map Json.num := by
  cases h : s.y2 <;>
    simp [encodeFields, getField, h,
      getField_optField_append_ne, getField_optField_ne,
      getField_optField_append_some, getField_optField_append_none,
      getField_optField_some]

lemma gf_points (s : Shape) :
    getField (encodeFields s) "points" = s.points.map encodePoints := by
  cases h : s.points <;>
    simp [encodeFields, getField, h,
      getField_optField_append_ne, getField_optField_ne,
      getField_optField_append_some, getField_optField_append_none,
      getField_optField_some]

lemma gf_content (s : Shape) :
    getField (encodeFields s) "content" = s.content.map Json.str := by
  cases h : s.content <;>
    simp [encodeFields, getField, h,
      getField_optField_append_ne, getField_optField_ne,
      getField_optField_append_some, getField_optField_append_none,
      getField_optField_some]

lemma gf_fontSize (s : Shape) :
    getField (encodeFields s) "fontSize" = s.fontSize.map Json.num := by
  cases h : s.fontSize <;>
    simp [encodeFields, getField, h,
      getField_optField_append_ne, getField_optField_ne,
      getField_optField_append_some, getField_optField_append_none,
      getField_optField_some]

lemma gf_fontFamily (s : Shape) :
    getField (encodeFields s) "fontFamily" = s.fontFamily.map Json.str := by
  cases h : s.fontFamily <;>
    simp [encodeFields, getField, h,
      getField_optField_append_ne, getField_optField_ne,
      getField_optField_append_some, getField_optField_append_none,
      getField_optField_some]

lemma gf_color (s : Shape) :
    getField (encodeFields s) "color" = s.color.map Json.str := by
  cases h : s.color <;>
    simp [encodeFields, getField, h,
      getField_optField_append_ne, getField_optField_ne,
      getField_optField_append_some, getField_optField_append_none,
      getField_optField_some]

lemma bind_asNum_map (o : Option ℚ) : (o.map Json.num).bind asNum = o := by
  cases o <;> rfl

lemma bind_asStr_map (o : Option String) : (o.map Json.str).bind asStr = o := by
  cases o <;> rfl

lemma decodePoint_encodePoint (p : Point) : decodePoint (encodePoint p) = some p := rfl

lemma decodePointList_encode (ps : List Point) :
    decodePointList (ps.map encodePoint) = some ps := by
  induction ps with
  | nil => rfl
  | cons p ps ih => simp [decodePointList, decodePoint_encodePoint, ih]

lemma decodeOptPoints_map (o : Option (List Point)) :
    decodeOptPoints (o.map encodePoints) = some o := by
  cases o with
  | none => rfl
  | some ps => simp [decodeOptPoints, encodePoints, decodePointList_encode]

/-- Round trip for one shape: decoding its JSON encoding restores the record. -/
theorem decodeShape_encodeShape (s : Shape) : decodeShape (encodeShape s) = some s := by
  have h1 : getField (encodeFields s) "id" = some (.str s.id) := rfl
  have h2 : getField (encodeFields s) "type" = some (.str s.type) := rfl
  have h3 : getField (encodeFields s) "x" = some (.num s.x) := rfl
  have h4 : getField (encodeFields s) "y" = some (.num s.y) := rfl
  have h5 : getField (encodeFields s) "pageId" = some (.str s.pageId) := rfl
  simp [decodeShape, encodeShape, h1, h2, h3, h4, h5,
    gf_width, gf_height, gf_radius, gf_x2, gf_y2, gf_points, gf_content,
    gf_fontSize, gf_fontFamily, gf_color,
    bind_asNum_map, bind_asStr_map, decodeOptPoints_map, asNum_num, asStr_str]

/-- Round trip for the whole cached list. -/
theorem decodeShapes_encodeShapes (l : List Shape) :
    decodeShapes (encodeShapes l) = some l := by
  have h : decodeShapeList (l.map encodeShape) = some l := by
    induction l with
    | nil => rfl
    | cons s t ih => simp [decodeShapeList, decodeShape_encodeShape, ih]
  simpa [decodeShapes, encodeShapes] using h

/-!
Hit-testing (findShapeAt). The loop body's per-variant containment test is
`shapeContains`; the loop runs from the last index down to 0 and returns the
first containing shape.
-/

/-- Bounding box of a nonempty stroke, folded over the points exactly as the
forEach over `bbox` does (starting from plus and minus infinity is the same as
starting from the first point). Returns `(minX, minY, maxX, maxY)`. -/
def pencilBBox (p0 : Point) (rest : List Point) : ℚ × ℚ × ℚ × ℚ :=
  rest.foldl
    (fun b p => (min b.1 p.x, min b.2.1 p.y, max b.2.2.1 p.x, max b.2.2.2 p.y))
    (p0.x, p0.y, p0.x, p0.y)

/-- Containment test of one shape at a point, the body of the `findShapeAt`
loop. The circle branch `Math.sqrt(dx*dx + dy*dy) <= (s.radius || 30)` is
encoded without the square root: for the exact real square root,
`sqrt d ≤ r` holds iff `0 ≤ r` and `d ≤ r * r`. An undefined `x2`/`y2` on a
line or arrow makes every JS comparison NaN-false, hence `false` here. -/
def shapeContains (point : Point) (s : Shape) : Bool :=
  if s.type = "circle" then
    let dx := point.x - s.x
    let dy := point.y - s.y
    let r := jsOrNum s.radius 30
    decide (0 ≤ r ∧ dx * dx + dy * dy ≤ r * r)
  else if s.type = "line" ∨ s.type = "arrow" then
    match s.x2, s.y2 with
    | some x2, some y2 =>
      let minX := min s.x x2
      let maxX := max s.x x2
      let minY := min s.y y2
      let maxY := max s.y y2
      decide (minX - 6 ≤ point.x ∧ point.x ≤ maxX + 6 ∧
              minY - 6 ≤ point.y ∧ point.y ≤ maxY + 6)
    | _, _ => false
  else if s.type = "pencil" then
    match s.points.getD [] with
    | [] => false
    | p0 :: rest =>
      let b := pencilBBox p0 rest
      decide (b.1 ≤ point.x ∧ point.x ≤ b.2.2.1 ∧
              b.2.1 ≤ point.y ∧ point.y ≤ b.2.2.2)
  else
    let w := jsOrNum s.width 60
    let h := jsOrNum s.height 40
    decide (s.x ≤ point.x ∧ point.x ≤ s.x + w ∧
            s.y ≤ point.y ∧ point.y ≤ s.y + h)

/-- Model of `findShapeAt(point)`: the downward loop tests the tail of the
list (the higher indices) before the head, so the recursion prefers any hit
found in `rest` over a hit on `s`. -/
def findShapeAt (point : Point) : List Shape → Option Shape
  | [] => none
  | s :: rest =>
    match findShapeAt point rest with
    | some t => some t
    | none => if shapeContains point s then some s else none

/-!
Interaction state machine. React state plus the `dragState` ref are collected
in `WBState`; `localStorage` is the `localStore` component; the fire-and-forget
`fetch` calls of one event handler are returned as a `RemoteReq` list.
-/

/-- The `dragState` ref contents. -/
structure DragState where
  dragging : Bool
  offsetX : ℚ
  offsetY : ℚ
  shapeId : Option String
  deriving DecidableEq

/-- Whiteboard component state (React state, the drag ref, and the cache). -/
structure WBState where
  tool : String
  shapes : List Shape
  isDrawing : Bool
  current : Option Shape
  selectedId : Option String
  pageId : String
  drag : DragState
  localStore : Option Json

/-- A fire-and-forget remote request issued by a handler; the outcome is
ignored by the component, so only the request itself is modelled. -/
inductive RemoteReq where
  | post (body : Shape)
  | put (id : String) (body : Shape)
  deriving DecidableEq

/-- Model of `handleMouseDown`. The pointer position `p`, the clock/random
draws feeding `uid`, and the result of the blocking `prompt` (for the text
tool; `none` is cancel) are explicit inputs. Returns the successor state and
the remote requests fired. -/
def handleMouseDown (st : WBState) (p : Point) (t r : Nat)
    (promptResult : Option String) : WBState × List RemoteReq :=
  if st.tool = "pencil" then
    let s : Shape :=
      { id := uid "shape" t r, type := "pencil", x := p.x, y := p.y,
        points := some [⟨p.x, p.y⟩], pageId := st.pageId }
    ({ st with isDrawing := true, current := some s }, [])
  else if st.tool = "text" then
    match promptResult with
    | some text =>
      if text ≠ "" then
        let s : Shape :=
          { id := uid "shape" t r, type := "text", content := some text,
            x := p.x, y := p.y, pageId := st.pageId }
        let next := st.shapes ++ [s]
        ({ st with shapes := next, localStore := some (encodeShapes next) },
         [.post s])
      else (st, [])
    | none => (st, [])
  else
    match findShapeAt p st.shapes with
    | some hit =>
      ({ st with selectedId := some hit.id,
                 drag := { dragging := true, shapeId := some hit.id,
                           offsetX := p.x - hit.x, offsetY := p.y - hit.y } },
       [])
    | none => ({ st with selectedId := none }, [])

/-- Model of `handleMouseMove`: while a pencil draft is active the point is
appended to the draft only; while a drag is active the dragged shape is
repositioned and the whole list is written to the cache synchronously — and
no remote request is fired in either branch. -/
def handleMouseMove (st : WBState) (p : Point) : WBState × List RemoteReq :=
  if st.tool = "pencil" ∧ st.isDrawing ∧ st.current.isSome then
    match st.current with
    | some cur =>
      let upd : Shape :=
        { cur with points := some (cur.points.getD [] ++ [⟨p.x, p.y⟩]) }
      ({ st with current := some upd }, [])
    | none => (st, [])
  else if st.drag.dragging then
    let next := st.shapes.map fun s =>
      if st.drag.shapeId ≠ some s.id then s
      else { s with x := p.x - st.drag.offsetX, y := p.y - st.drag.offsetY }
    ({ st with shapes := next, localStore := some (encodeShapes next) }, [])
  else (st, [])

/-- Model of `handleMouseUp`: a pencil draft is finalized (appended to the
list, cached, and POSTed); an active drag is ended with a single PUT of the
dragged shape (the position was already committed by the last move). -/
def handleMouseUp (st : WBState) (p : Point) : WBState × List RemoteReq :=
  if st.tool = "pencil" ∧ st.isDrawing ∧ st.current.isSome then
    match st.current with
    | some cur =>
      let final := cur
      let next := st.shapes ++ [final]
      ({ st with shapes := next, localStore := some (encodeShapes next),
                 current := none, isDrawing := false },
       [.post final])
    | none => (st, [])
  else if st.drag.dragging then
    let reqs := match st.shapes.find? (fun x => st.drag.shapeId = some x.id) with
      | some s => [.put s.id s]
      | none => []
    ({ st with drag := { st.drag with dragging := false, shapeId := none } },
     reqs)
  else (st, [])

/-- Repeated pointer-move processing (state only; the moves of interest emit
no remote requests). -/
def runMoves (st : WBState) (ps : List Point) : WBState :=
  ps.foldl (fun s p => (handleMouseMove s p).1) st

/-- Model of `addShape`'s state effect: append the constructed shape, write
the cache synchronously, and POST the shape. -/
def addShapeAction (st : WBState) (type : String) (t r : Nat) (rx ry : ℚ) :
    WBState × List RemoteReq :=
  let s := addShape type st.pageId t r rx ry
  let next := st.shapes ++ [s]
  ({ st with shapes := next, localStore := some (encodeShapes next) }, [.post s])

/-- Outcome of the mount-time fetch: `ok data` is a network success with a
successful status and body `data`; `fail` is any network error, thrown
exception or non-success status. -/
inductive FetchResult where
  | ok (data : List Shape)
  | fail

/-- Model of the mount-time `load()`: on success the fetched list replaces the
state and overwrites the cache; on any failure the cache is read instead, and
an absent cache leaves the initial empty list. No path signals an error (the
function is total). A cached value not produced by this component decodes to
the empty list, a case the component itself never creates. -/
def load (result : FetchResult) (cache : Option Json) : List Shape × Option Json :=
  match result with
  | .ok data => (data, some (encodeShapes data))
  | .fail =>
    match cache with
    | some saved => ((decodeShapes saved).getD [], cache)
    | none => ([], cache)

/-!
Renderer. The canvas context calls issued by `draw()` are recorded as a
command list. The arrow head's two back edges are computed from `(x2, y2)`
through `atan2`, `cos` and `sin`; that transcendental computation is a pure
function of `(x2, y2)`, recorded as the single command `arrowHead x2 y2`.
A `lineTo`/`arrowHead` whose JS arguments would be NaN (an undefined second
endpoint) is recorded by the dedicated NaN commands.
-/

/-- One canvas context call. -/
inductive DrawCmd where
  | setTransformIdentity
  | clearRect (x y w h : ℚ)
  | scaleBy (k : ℚ)
  | save
  | translate (x y : ℚ)
  | beginPath
  | arc (cx cy r : ℚ)
  | setFill (c : String)
  | fill
  | setStroke (c : String)
  | stroke
  | moveTo (x y : ℚ)
  | lineTo (x y : ℚ)
  | lineToNaN
  | arrowHead (x y : ℚ)
  | arrowHeadNaN
  | closePath
  | setLineWidth (w : ℚ)
  | strokeRect (x y w h : ℚ)
  | fillRect (x y w h : ℚ)
  | setFont (size : ℚ) (family : String)
  | textBaselineTop
  | fillText (text : String) (x y : ℚ)
  | restore
  deriving DecidableEq

/-- Context calls of the per-variant drawing branch for one shape (issued
between the per-shape `translate` and `restore`). -/
def shapeCmds (s : Shape) : List DrawCmd :=
  if s.type = "circle" then
    [.beginPath, .arc 0 0 (jsOrNum s.radius 30),
     .setFill (jsOrStr s.color "rgba(0,0,0,0.05)"), .fill,
     .setStroke "black", .stroke]
  else if s.type = "line" then
    match s.x2, s.y2 with
    | some x2, some y2 =>
      [.beginPath, .moveTo 0 0, .lineTo (x2 - s.x) (y2 - s.y),
       .setStroke "black", .stroke]
    | _, _ => [.beginPath, .moveTo 0 0, .lineToNaN, .setStroke "black", .stroke]
  else if s.type = "arrow" then
    match s.x2, s.y2 with
    | some sx2, some sy2 =>
      let x2 := sx2 - s.x
      let y2 := sy2 - s.y
      [.beginPath, .moveTo 0 0, .lineTo x2 y2, .stroke,
       .beginPath, .arrowHead x2 y2, .closePath, .setFill "black", .fill]
    | _, _ =>
      [.beginPath, .moveTo 0 0, .lineToNaN, .stroke,
       .beginPath, .arrowHeadNaN, .closePath, .setFill "black", .fill]
  else if s.type = "pencil" then
    match s.points.getD [] with
    | [] => [.beginPath, .stroke]
    | p0 :: rest =>
      [.beginPath, .moveTo (p0.x - s.x) (p0.y - s.y)] ++
      rest.map (fun p => .lineTo (p.x - s.x) (p.y - s.y)) ++ [.stroke]
  else if s.type = "text" then
    [.setFill (jsOrStr s.color "#000"),
     .setFont (jsOrNum s.fontSize 16) (jsOrStr s.fontFamily "Arial"),
     .textBaselineTop, .fillText (jsOrStr s.content "") 0 0]
  else
    [.setFill (jsOrStr s.color "rgba(0,0,0,0.05)"),
     .fillRect 0 0 (jsOrNum s.width 60) (jsOrNum s.height 40),
     .strokeRect 0 0 (jsOrNum s.width 60) (jsOrNum s.height 40)]

/-- Selection overlay for one shape: drawn only when this shape's id is the
selected one, in identity transform, around the inflated nominal bounding
box (`s.width || (s.radius ? s.radius * 2 : 60)` and the 40-height analogue). -/
def selectionCmds (selectedId : Option String) (s : Shape) : List DrawCmd :=
  if selectedId = some s.id then
    let rw := match s.radius with
      | some rq => if rq = 0 then 60 else rq * 2
      | none => 60
    let rh := match s.radius with
      | some rq => if rq = 0 then 40 else rq * 2
      | none => 40
    let w := jsOrNum s.width rw
    let h := jsOrNum s.height rh
    [.save, .setTransformIdentity, .setStroke "#0ea5a4", .setLineWidth 1,
     .strokeRect (s.x - 6) (s.y - 6) (w + 12) (h + 12), .restore]
  else []

/-- Model of `draw()`: reset the transform, clear the physical surface, scale
by the device pixel ratio, then draw each committed shape in list order in its
own translated frame followed by its selection overlay. It reads only
`st.shapes` and `st.selectedId` from the component state. -/
def draw (st : WBState) (canvasW canvasH dpr : ℚ) : List DrawCmd :=
  [.setTransformIdentity, .clearRect 0 0 canvasW canvasH, .scaleBy dpr] ++
  st.shapes.flatMap (fun s =>
    ([.save, .translate s.x s.y] ++ shapeCmds s ++ [.restore]) ++
    selectionCmds st.selectedId s)

/-!
Spec-side containment predicates (for the refinement claim about hit-testing):
these are written from the specification's words, to be compared with
`shapeContains`, which is translated from the source.
-/

/-- Containment as the claim states it: per-variant formulas with the 60 by 40
(and radius 30) defaults applying exactly when the field is absent. The circle
formula (Euclidean distance at most the radius) is again encoded without the
square root. -/
def specContains (p : Point) (s : Shape) : Bool :=
  if s.type = "circle" then
    let r := s.radius.getD 30
    decide (0 ≤ r ∧ (p.x - s.x) * (p.x - s.x) + (p.y - s.y) * (p.y - s.y) ≤ r * r)
  else if s.type = "line" ∨ s.type = "arrow" then
    match s.x2, s.y2 with
    | some x2, some y2 =>
      decide (min s.x x2 - 6 ≤ p.x ∧ p.x ≤ max s.x x2 + 6 ∧
              min s.y y2 - 6 ≤ p.y ∧ p.y ≤ max s.y y2 + 6)
    | _, _ => false
  else if s.type = "pencil" then
    match s.points.getD [] with
    | [] => false
    | p0 :: rest =>
      let b := pencilBBox p0 rest
      decide (b.1 ≤ p.x ∧ p.x ≤ b.2.2.1 ∧ b.2.1 ≤ p.y ∧ p.y ≤ b.2.2.2)
  else
    let w := s.width.getD 60
    let h := s.height.getD 40
    decide (s.x ≤ p.x ∧ p.x ≤ s.x + w ∧ s.y ≤ p.y ∧ p.y ≤ s.y + h)

/-- Containment as amended: identical to `specContains` except that the
defaults follow JS truthiness, applying when the field is absent or zero. -/
def specContainsAmended (p : Point) (s : Shape) : Bool :=
  if s.type = "circle" then
    let r := jsOrNum s.radius 30
    decide (0 ≤ r ∧ (p.x - s.x) * (p.x - s.x) + (p.y - s.y) * (p.y - s.y) ≤ r * r)
  else if s.type = "line" ∨ s.type = "arrow" then
    match s.x2, s.y2 with
    | some x2, some y2 =>
      decide (min s.x x2 - 6 ≤ p.x ∧ p.x ≤ max s.x x2 + 6 ∧
              min s.y y2 - 6 ≤ p.y ∧ p.y ≤ max s.y y2 + 6)
    | _, _ => false
  else if s.type = "pencil" then
    match s.points.getD [] with
    | [] => false
    | p0 :: rest =>
      let b := pencilBBox p0 rest
      decide (b.1 ≤ p.x ∧ p.x ≤ b.2.2.1 ∧ b.2.1 ≤ p.y ∧ p.y ≤ b.2.2.2)
  else
    let w := jsOrNum s.width 60
    let h := jsOrNum s.height 40
    decide (s.x ≤ p.x ∧ p.x ≤ s.x + w ∧ s.y ≤ p.y ∧ p.y ≤ s.y + h)

/-!
Decimal rendering facts, used for id freshness: the digit characters decode
back to the number, so `natChars` is injective, and no digit is `'_'`, so the
two components of a `uid` string can be recovered unambiguously.
-/

/-- Value of a digit-character list, most significant first. -/
def charsVal (cs : List Char) : Nat :=
  cs.foldl (fun a c => 10 * a + (c.toNat - 48)) 0

lemma digitChar_toNat (d : Nat) (h : d < 10) : (digitChar d).toNat = 48 + d := by
  interval_cases d <;> rfl

lemma digitChar_ne_underscore (d : Nat) (h : d < 10) : digitChar d ≠ '_' := by
  interval_cases d <;> decide

lemma charsVal_natChars (n : Nat) : charsVal (natChars n) = n := by
  induction n using Nat.strong_induction_on with
  | _ n ih =>
    rw [natChars]
    by_cases h : n < 10
    · rw [dif_pos h]
      have := digitChar_toNat n h
      simp [charsVal, this]
    · rw [dif_neg h]
      have hdiv : n / 10 < n := Nat.div_lt_self (by omega) (by omega)
      have hmod : n % 10 < 10 := Nat.mod_lt _ (by omega)
      have h1 := ih (n / 10) hdiv
      have h2 := digitChar_toNat (n % 10) hmod
      simp only [charsVal, List.foldl_append, List.foldl_cons, List.foldl_nil] at h1 ⊢
      rw [h1, h2]
      omega

lemma natChars_inj {m n : Nat} (h : natChars m = natChars n) : m = n := by
  have hm := charsVal_natChars m
  rw [h, charsVal_natChars n] at hm
  exact hm.symm

lemma underscore_not_mem_natChars (n : Nat) : '_' ∉ natChars n := by
  induction n using Nat.strong_induction_on with
  | _ n ih =>
    rw [natChars]
    by_cases h : n < 10
    · rw [dif_pos h]
      simp [List.mem_singleton]
      exact fun hu => (digitChar_ne_underscore n h) hu.symm
    · rw [dif_neg h]
      have hdiv : n / 10 < n := Nat.div_lt_self (by omega) (by omega)
      have hmod : n % 10 < 10 := Nat.mod_lt _ (by omega)
      simp [List.mem_append, List.mem_singleton]
      refine ⟨ih (n / 10) hdiv, fun hu => (digitChar_ne_underscore (n % 10) hmod) hu.symm⟩

lemma sep_split {a1 : List Char} {b1 : List Char} {a2 b2 : List Char}
    (h1 : '_' ∉ a1) (h2 : '_' ∉ a2)
    (heq : a1 ++ '_' :: b1 = a2 ++ '_' :: b2) : a1 = a2 ∧ b1 = b2 := by
  induction a1 generalizing a2 with
  | nil =>
    cases a2 with
    | nil => simpa using heq
    | cons c t =>
      simp only [List.nil_append, List.cons_append, List.cons.injEq] at heq
      exact absurd (heq.1 ▸ List.mem_cons_self c t) h2
  | cons c t ih =>
    cases a2 with
    | nil =>
      simp only [List.nil_append, List.cons_append, List.cons.injEq] at heq
      exact absurd (heq.1.symm ▸ List.mem_cons_self c t) h1
    | cons c2 t2 =>
      simp only [List.cons_append, List.cons.injEq] at heq
      have ht := ih (fun hm => h1 (List.mem_cons_of_mem _ hm))
        (fun hm => h2 (List.mem_cons_of_mem _ hm)) heq.2
      exact ⟨by rw [heq.1, ht.1], ht.2⟩

lemma uid_shape_inj {t1 r1 t2 r2 : Nat}
    (h : uid "shape" t1 r1 = uid "shape" t2 r2) : t1 = t2 ∧ r1 = r2 := by
  have hd := congrArg String.data h
  simp only [uid, natRepr, String.data_append, List.append_assoc,
    List.singleton_append] at hd
  have hd' : natChars t1 ++ '_' :: natChars r1 = natChars t2 ++ '_' :: natChars r2 := by
    have := List.append_cancel_left hd
    simpa using this
  have hs := sep_split (underscore_not_mem_natChars t1)
    (underscore_not_mem_natChars t2) hd'
  exact ⟨natChars_inj hs.1, natChars_inj hs.2⟩

/-!
Characterization of the downward hit-test loop.
-/

lemma findShapeAt_eq_none {p : Point} {L : List Shape}
    (h : ∀ s ∈ L, shapeContains p s = false) : findShapeAt p L = none := by
  induction L with
  | nil => rfl
  | cons s rest ih =>
    have hrest := ih (fun s' hs' => h s' (List.mem_cons_of_mem _ hs'))
    have hs := h s (List.mem_cons_self s rest)
    simp [findShapeAt, hrest, hs]

lemma findShapeAt_topmost {p : Point} {L : List Shape} {i : Nat}
    (hi : i < L.length) (hc : shapeContains p L[i] = true)
    (htop : ∀ j, (hj : j < L.length) → i < j → shapeContains p L[j] = false) :
    findShapeAt p L = some L[i] := by
  induction L generalizing i with
  | nil => exact absurd hi (by simp)
  | cons s rest ih =>
    cases i with
    | zero =>
      have hrest : ∀ s' ∈ rest, shapeContains p s' = false := by
        intro s' hs'
        obtain ⟨j, hj, rfl⟩ := List.mem_iff_getElem.mp hs'
        have := htop (j + 1) (by simpa using Nat.succ_lt_succ hj) (Nat.succ_pos j)
        simpa using this
      have hnone := findShapeAt_eq_none hrest
      simp only [findShapeAt, hnone]
      simp only [List.getElem_cons_zero] at hc
      simp [hc]
    | succ k =>
      have hk : k < rest.length := by simpa using Nat.lt_of_succ_lt_succ hi
      have hc' : shapeContains p rest[k] = true := by
        simpa using hc
      have htop' : ∀ j, (hj : j < rest.length) → k < j →
          shapeContains p rest[j] = false := by
        intro j hj hkj
        have := htop (j + 1) (by simpa using Nat.succ_lt_succ hj)
          (Nat.succ_lt_succ hkj)
        simpa using this
      have hrest := ih hk hc' htop'
      simp only [findShapeAt, hrest, List.getElem_cons_succ]

lemma shapeContains_eq_amended (p : Point) (s : Shape) :
    shapeContains p s = specContainsAmended p s := rfl

/-!
Claim theorems.
-/

/-- C2: `hitTest` traverses the shape list in reverse (last-inserted first):
if no shape contains the point the result is no hit, and otherwise the
containing shape with the highest index is returned, regardless of the
variants involved. -/
theorem C2_hitTest_topmost (p : Point) (L : List Shape) :
    ((∀ s ∈ L, shapeContains p s = false) → findShapeAt p L = none) ∧
    (∀ i, (hi : i < L.length) → shapeContains p L[i] = true →
      (∀ j, (hj : j < L.length) → i < j → shapeContains p L[j] = false) →
      findShapeAt p L = some L[i]) :=
  ⟨fun h => findShapeAt_eq_none h,
   fun _ hi hc htop => findShapeAt_topmost hi hc htop⟩

/-- Shapes for the C2 witness: two default rectangles whose 60 by 40 boxes
both contain the probe point, the later-inserted one winning. -/
def rectA : Shape :=
  { id := "a", type := "rectangle", x := 0, y := 0, pageId := "page_1" }

def rectB : Shape :=
  { id := "b", type := "rectangle", x := 10, y := 10, pageId := "page_1" }

/-- C2 witness: on two overlapping rectangles the later-inserted one is hit. -/
theorem C2_witness : findShapeAt ⟨20, 20⟩ [rectA, rectB] = some rectB := by
  have h := (C2_hitTest_topmost ⟨20, 20⟩ [rectA, rectB]).2 1 (by norm_num)
    (by norm_num +decide [shapeContains, rectA, rectB, jsOrNum])
    (fun j hj hij => by simp only [List.length_cons, List.length_nil] at hj; omega)
  exact h

/-- Rectangle with explicit zero width and height: the code's `||` defaults
treat the falsy `0` as absent and hit-test a 60 by 40 box, while the claim's
formulas default only when the field is absent. -/
def zeroRect : Shape :=
  { id := "z", type := "rectangle", x := 10, y := 10, pageId := "page_1",
    width := some 0, height := some 0 }

/-- C3 counterexample: at width = height = 0 the code still reports a hit in
the 60 by 40 default box, but the claim's containment formula (defaults only
when width and height are absent) does not hold there, refuting the stated
equivalence. -/
theorem C3_counterexample :
    findShapeAt ⟨40, 30⟩ [zeroRect] = some zeroRect ∧
    specContains ⟨40, 30⟩ zeroRect = false := by
  constructor
  · norm_num +decide [findShapeAt, shapeContains, zeroRect, jsOrNum]
  · norm_num +decide [specContains, zeroRect]

/-- C3 amended: `hitTest(P, [S])` returns S exactly when S's variant
containment predicate holds at P, with the 60 by 40 (and radius 30) defaults
applying when the field is absent or zero (JS falsiness), per the formulas of
`specContainsAmended`. -/
theorem C3_hitTest_iff (s : Shape) (p : Point) :
    findShapeAt p [s] = some s ↔ specContainsAmended p s = true := by
  have h : findShapeAt p [s] =
      if specContainsAmended p s then some s else none := rfl
  rw [h]
  by_cases hc : specContainsAmended p s = true
  · simp [hc]
  · simp only [Bool.not_eq_true] at hc
    simp [hc]

/-- C7: at startup a successful remote fetch replaces the state and overwrites
the cache; on any failure the cache is read instead; with no cache the session
starts empty. `load` is total, so no path surfaces an error. -/
theorem C7_load_fallback (result : FetchResult) (cache : Option Json) :
    (∀ data, result = .ok data → load result cache = (data, some (encodeShapes data))) ∧
    (result = .fail → ∀ l, cache = some (encodeShapes l) → load result cache = (l, cache)) ∧
    (result = .fail → cache = none → load result cache = ([], none)) := by
  refine ⟨fun data hr => ?_, fun hr l hc => ?_, fun hr hc => ?_⟩
  · subst hr; rfl
  · subst hr; subst hc
    simp [load, decodeShapes_encodeShapes]
  · subst hr; subst hc; rfl

/-- C7 witness: a failed fetch over a cache holding one encoded shape restores
that shape; a failed fetch with no cache yields the empty list. -/
theorem C7_witness :
    load FetchResult.fail (some (encodeShapes [rectA])) =
      ([rectA], some (encodeShapes [rectA])) ∧
    load FetchResult.fail none = ([], none) :=
  ⟨(C7_load_fallback FetchResult.fail (some (encodeShapes [rectA]))).2.1 rfl [rectA] rfl,
   (C7_load_fallback FetchResult.fail none).2.2 rfl rfl⟩

/-- C8: serializing the shape list to the cache and reloading it — as on a
remote-fetch failure at startup — is the identity: the decoded list has the
same shapes, field values and order. -/
theorem C8_cache_roundtrip (l : List Shape) :
    decodeShapes (encodeShapes l) = some l ∧
    load FetchResult.fail (some (encodeShapes l)) = (l, some (encodeShapes l)) := by
  refine ⟨decodeShapes_encodeShapes l, ?_⟩
  simp [load, decodeShapes_encodeShapes]

/-- C10: the rendered command stream is a function of the committed shape list
and the selected id only: states that differ in the in-progress pencil draft,
the drawing flag, the drag session or the cache render identically — in
particular an uncommitted draft is never drawn. -/
theorem C10_draw_committed_only (s1 s2 : WBState) (w h dpr : ℚ)
    (hsh : s1.shapes = s2.shapes) (hsel : s1.selectedId = s2.selectedId) :
    draw s1 w h dpr = draw s2 w h dpr := by
  simp [draw, hsh, hsel]

/-- State mid-draft: pencil tool, drawing flag set, a live draft, and a drag
session left armed; renders the same as the quiescent state below. -/
def c10Drafting : WBState :=
  { tool := "pencil", shapes := [rectA], isDrawing := true,
    current := some { id := "d", type := "pencil", x := 0, y := 0,
                      points := some [⟨0, 0⟩, ⟨5, 5⟩], pageId := "page_1" },
    selectedId := some "a", pageId := "page_1",
    drag := { dragging := true, offsetX := 3, offsetY := 4, shapeId := some "a" },
    localStore := none }

/-- Quiescent state over the same committed shapes and selection. -/
def c10Quiet : WBState :=
  { tool := "select", shapes := [rectA], isDrawing := false, current := none,
    selectedId := some "a", pageId := "page_1",
    drag := { dragging := false, offsetX := 0, offsetY := 0, shapeId := none },
    localStore := some (encodeShapes [rectA]) }

/-- C10 witness: the mid-draft and quiescent states render identically. -/
theorem C10_witness : draw c10Drafting 800 480 2 = draw c10Quiet 800 480 2 :=
  C10_draw_committed_only c10Drafting c10Quiet 800 480 2 rfl rfl

lemma shape_update_points_self (s : Shape) (pts : List Point)
    (h : s.points = some pts) : ({ s with points := some pts } : Shape) = s := by
  rw [← h]

lemma wb_update_current_self (st : WBState) (c : Option Shape)
    (h : st.current = c) : ({ st with current := c } : WBState) = st := by
  rw [← h]

/-- Processing a run of pointer moves while a pencil draft is active appends
every move point, in order, to the draft and touches nothing else. -/
lemma runMoves_pencil (ps : List Point) (st : WBState) (cur : Shape)
    (pts : List Point) (htool : st.tool = "pencil") (hdraw : st.isDrawing = true)
    (hcur : st.current = some cur) (hpts : cur.points = some pts) :
    runMoves st ps =
      { st with current := some ({ cur with points := some (pts ++ ps) }) } := by
  induction ps generalizing st cur pts with
  | nil =>
    have h1 := shape_update_points_self cur pts hpts
    have h2 := wb_update_current_self st (some cur) hcur
    simp only [runMoves, List.foldl_nil, List.append_nil, h1, h2]
  | cons p ps ih =>
    have hguard : st.tool = "pencil" ∧ st.isDrawing = true ∧
        st.current.isSome = true := ⟨htool, hdraw, by rw [hcur]; rfl⟩
    have hstep : (handleMouseMove st p).1 =
        { st with current := some ({ cur with points := some (pts ++ [p]) }) } := by
      simp only [handleMouseMove]
      rw [if_pos hguard]
      simp only [hcur, hpts, Option.getD_some]
    have htail : runMoves st (p :: ps) = runMoves (handleMouseMove st p).1 ps := rfl
    rw [htail, hstep]
    have h2 := ih
      ({ st with current := some ({ cur with points := some (pts ++ [p]) }) })
      ({ cur with points := some (pts ++ [p]) })
      (pts ++ [p]) htool hdraw rfl rfl
    rw [h2]
    simp [List.append_assoc]

/-- C5: beginning a pencil draft at `p0`, processing the moves `ps` (none
dropped, all in order) and releasing commits exactly one pencil shape appended
to the list, whose point sequence is the down point followed by every move
point, of length `ps.length + 1`; the draft and drawing flag are cleared. -/
theorem C5_pencil_commit (st : WBState) (p0 : Point) (ps : List Point)
    (t r : Nat) (pu : Point) (htool : st.tool = "pencil") :
    (handleMouseUp (runMoves (handleMouseDown st p0 t r none).1 ps) pu).1.shapes =
      st.shapes ++ [{ id := uid "shape" t r, type := "pencil", x := p0.x, y := p0.y,
                      points := some (p0 :: ps), pageId := st.pageId }] ∧
    (handleMouseUp (runMoves (handleMouseDown st p0 t r none).1 ps) pu).1.isDrawing = false ∧
    (handleMouseUp (runMoves (handleMouseDown st p0 t r none).1 ps) pu).1.current = none ∧
    (p0 :: ps).length = ps.length + 1 := by
  have hdown : (handleMouseDown st p0 t r none).1 =
      { st with isDrawing := true,
                current := some { id := uid "shape" t r, type := "pencil",
                                  x := p0.x, y := p0.y, points := some [p0],
                                  pageId := st.pageId } } := by
    simp [handleMouseDown, htool]
  have hmoves := runMoves_pencil ps
    ({ st with isDrawing := true,
               current := some { id := uid "shape" t r, type := "pencil",
                                 x := p0.x, y := p0.y, points := some [p0],
                                 pageId := st.pageId } })
    ({ id := uid "shape" t r, type := "pencil", x := p0.x, y := p0.y,
       points := some [p0], pageId := st.pageId })
    [p0] htool rfl rfl rfl
  rw [hdown, hmoves]
  simp [handleMouseUp, htool]

/-- Empty quiescent state used by several concrete scenarios. -/
def emptySt : WBState :=
  { tool := "select", shapes := [], isDrawing := false, current := none,
    selectedId := none, pageId := "page_1",
    drag := { dragging := false, offsetX := 0, offsetY := 0, shapeId := none },
    localStore := none }

/-- Pencil-tool starting state for the C5 witness. -/
def c5St : WBState := { emptySt with tool := "pencil" }

/-- C5 witness: the spec's scenario — down at (0,0), moves through (5,5) and
(10,0), release — commits one pencil shape with all three points. -/
theorem C5_witness :
    (handleMouseUp (runMoves (handleMouseDown c5St ⟨0, 0⟩ 1 2 none).1
        [⟨5, 5⟩, ⟨10, 0⟩]) ⟨10, 0⟩).1.shapes =
      c5St.shapes ++ [{ id := uid "shape" 1 2, type := "pencil", x := 0, y := 0,
                        points := some [⟨0, 0⟩, ⟨5, 5⟩, ⟨10, 0⟩],
                        pageId := c5St.pageId }] ∧
    (handleMouseUp (runMoves (handleMouseDown c5St ⟨0, 0⟩ 1 2 none).1
        [⟨5, 5⟩, ⟨10, 0⟩]) ⟨10, 0⟩).1.isDrawing = false ∧
    (handleMouseUp (runMoves (handleMouseDown c5St ⟨0, 0⟩ 1 2 none).1
        [⟨5, 5⟩, ⟨10, 0⟩]) ⟨10, 0⟩).1.current = none ∧
    ([⟨0, 0⟩, ⟨5, 5⟩, ⟨10, 0⟩] : List Point).length =
      ([⟨5, 5⟩, ⟨10, 0⟩] : List Point).length + 1 :=
  C5_pencil_commit c5St ⟨0, 0⟩ [⟨5, 5⟩, ⟨10, 0⟩] 1 2 ⟨10, 0⟩ rfl


/-- Dragged rectangle for the C1 and C4 scenarios. -/
def dragShape : Shape :=
  { id := "s1", type := "rectangle", x := 100, y := 100, pageId := "page_1" }

/-- State in the middle of a drag session: offset (10, 5) was recorded at
pointer-down on `dragShape`. -/
def dragSt : WBState :=
  { tool := "select", shapes := [dragShape], isDrawing := false, current := none,
    selectedId := some "s1", pageId := "page_1",
    drag := { dragging := true, offsetX := 10, offsetY := 5, shapeId := some "s1" },
    localStore := none }

/-- C1 counterexample: a pointer-move during an active drag session does
reposition the dragged shape (its x moves from 100 to 190) but fires no
remote request at all — the claimed immediate asynchronous PUT on every move
does not happen; the PUT is issued only at pointer-up. -/
theorem C1_counterexample :
    (handleMouseMove dragSt ⟨200, 150⟩).1.shapes.map Shape.x = [190] ∧
    dragSt.shapes.map Shape.x = [100] ∧
    (handleMouseMove dragSt ⟨200, 150⟩).2 = [] := by
  refine ⟨?_, rfl, rfl⟩
  norm_num +decide [handleMouseMove, dragSt, dragShape]

/-- C1 amended: while a drag session is active (and no pencil draft is), every
pointer-move commits the repositioned list to the local cache synchronously
and fires no remote request; the single PUT of the dragged shape is issued at
pointer-up, which leaves the list and the cache untouched. An active pencil
draft is persisted nowhere on move, and only at finalize on pointer-up, where
the committed list is cached and the new shape is POSTed. -/
theorem C1_drag_persistence :
    (∀ (st : WBState) (p : Point),
      ¬(st.tool = "pencil" ∧ st.isDrawing = true ∧ st.current.isSome = true) →
      st.drag.dragging = true →
      (handleMouseMove st p).1.localStore =
        some (encodeShapes (handleMouseMove st p).1.shapes) ∧
      (handleMouseMove st p).2 = []) ∧
    (∀ (st : WBState) (p : Point),
      ¬(st.tool = "pencil" ∧ st.isDrawing = true ∧ st.current.isSome = true) →
      st.drag.dragging = true →
      (handleMouseUp st p).1.shapes = st.shapes ∧
      (handleMouseUp st p).1.localStore = st.localStore ∧
      (handleMouseUp st p).2 =
        (match st.shapes.find? (fun x => st.drag.shapeId = some x.id) with
         | some s => [RemoteReq.put s.id s]
         | none => [])) ∧
    (∀ (st : WBState) (p : Point) (cur : Shape),
      st.tool = "pencil" → st.isDrawing = true → st.current = some cur →
      (handleMouseMove st p).1.shapes = st.shapes ∧
      (handleMouseMove st p).1.localStore = st.localStore ∧
      (handleMouseMove st p).2 = []) ∧
    (∀ (st : WBState) (p : Point) (cur : Shape),
      st.tool = "pencil" → st.isDrawing = true → st.current = some cur →
      (handleMouseUp st p).1.shapes = st.shapes ++ [cur] ∧
      (handleMouseUp st p).1.localStore = some (encodeShapes (st.shapes ++ [cur])) ∧
      (handleMouseUp st p).2 = [RemoteReq.post cur]) := by
  refine ⟨fun st p hguard hdrag => ?_, fun st p hguard hdrag => ?_,
          fun st p cur htool hdraw hcur => ?_, fun st p cur htool hdraw hcur => ?_⟩
  · simp only [handleMouseMove]
    rw [if_neg hguard, if_pos hdrag]
    exact ⟨rfl, rfl⟩
  · simp only [handleMouseUp]
    rw [if_neg hguard, if_pos hdrag]
    exact ⟨rfl, rfl, rfl⟩
  · have hguard : st.tool = "pencil" ∧ st.isDrawing = true ∧
        st.current.isSome = true := ⟨htool, hdraw, by rw [hcur]; rfl⟩
    simp only [handleMouseMove]
    rw [if_pos hguard]
    simp [hcur]
  · have hguard : st.tool = "pencil" ∧ st.isDrawing = true ∧
        st.current.isSome = true := ⟨htool, hdraw, by rw [hcur]; rfl⟩
    simp only [handleMouseUp]
    rw [if_pos hguard]
    simp [hcur]

/-- C1 witness: on the concrete drag state, the move writes the cache and
fires nothing remote, and the pointer-up fires exactly the one PUT. -/
theorem C1_witness :
    ((handleMouseMove dragSt ⟨200, 150⟩).1.localStore =
      some (encodeShapes (handleMouseMove dragSt ⟨200, 150⟩).1.shapes) ∧
     (handleMouseMove dragSt ⟨200, 150⟩).2 = []) ∧
    (handleMouseUp dragSt ⟨200, 150⟩).2 =
      (match dragSt.shapes.find? (fun x => dragSt.drag.shapeId = some x.id) with
       | some s => [RemoteReq.put s.id s]
       | none => []) :=
  ⟨C1_drag_persistence.1 dragSt ⟨200, 150⟩ (by decide) rfl,
   (C1_drag_persistence.2.1 dragSt ⟨200, 150⟩ (by decide) rfl).2.2⟩

/-- C4: a pointer-move during a drag session with recorded offset maps the
list pointwise: the shape carrying the dragged id gets origin exactly
`pointer - offset` with every other field untouched (a record update of `x`
and `y` only), and every other shape is returned unchanged. -/
theorem C4_drag_move (st : WBState) (p : Point) (id : String)
    (hguard : ¬(st.tool = "pencil" ∧ st.isDrawing = true ∧ st.current.isSome = true))
    (hdrag : st.drag.dragging = true) (hid : st.drag.shapeId = some id) :
    (handleMouseMove st p).1.shapes.length = st.shapes.length ∧
    ∀ i, (hi : i < st.shapes.length) →
      (st.shapes[i].id = id →
        (handleMouseMove st p).1.shapes[i]? =
          some { st.shapes[i] with x := p.x - st.drag.offsetX,
                                   y := p.y - st.drag.offsetY }) ∧
      (st.shapes[i].id ≠ id →
        (handleMouseMove st p).1.shapes[i]? = some st.shapes[i]) := by
  have hm : (handleMouseMove st p).1.shapes = st.shapes.map (fun s =>
      if st.drag.shapeId ≠ some s.id then s
      else { s with x := p.x - st.drag.offsetX, y := p.y - st.drag.offsetY }) := by
    simp only [handleMouseMove]
    rw [if_neg hguard, if_pos hdrag]
  rw [hm]
  refine ⟨List.length_map .., fun i hi => ⟨fun hide => ?_, fun hide => ?_⟩⟩
  · rw [List.getElem?_map, List.getElem?_eq_getElem hi]
    simp [hid, hide]
  · rw [List.getElem?_map, List.getElem?_eq_getElem hi]
    simp [hid, Ne.symm hide]

/-- Pre-drag state for the C4 scenario: one rectangle at (100, 100). -/
def c4St0 : WBState :=
  { tool := "select", shapes := [dragShape], isDrawing := false, current := none,
    selectedId := none, pageId := "page_1",
    drag := { dragging := false, offsetX := 0, offsetY := 0, shapeId := none },
    localStore := none }

/-- State after pointer-down at (110, 105) on the rectangle. -/
def c4St1 : WBState := (handleMouseDown c4St0 ⟨110, 105⟩ 0 0 none).1

/-- C4 witness: the spec's scenario — grab the (100, 100) shape at (110, 105)
(recording offset (10, 5)) and move to (200, 150); the shape ends at
(190, 145) with every other field intact. -/
theorem C4_witness :
    (handleMouseMove c4St1 ⟨200, 150⟩).1.shapes[0]? =
      some ({ dragShape with x := 190, y := 145 }) := by
  have hfind : findShapeAt ⟨110, 105⟩ c4St0.shapes = some dragShape := by
    norm_num +decide [findShapeAt, shapeContains, c4St0, dragShape, jsOrNum]
  have hdown : c4St1 =
      { c4St0 with selectedId := some "s1",
                   drag := { dragging := true, shapeId := some "s1",
                             offsetX := (110 : ℚ) - 100, offsetY := (105 : ℚ) - 100 } } := by
    simp only [c4St1, handleMouseDown]
    rw [if_neg (by decide), if_neg (by decide), hfind]
    simp [dragShape]
  have hguard : ¬(c4St1.tool = "pencil" ∧ c4St1.isDrawing = true ∧
      c4St1.current.isSome = true) := by
    rw [hdown]; decide
  have hdrag : c4St1.drag.dragging = true := by rw [hdown]
  have hid : c4St1.drag.shapeId = some "s1" := by rw [hdown]
  have hi : 0 < c4St1.shapes.length := by rw [hdown]; decide
  have h0 : c4St1.shapes[0]? = some dragShape := by rw [hdown]; rfl
  have h00 : c4St1.shapes[0] = dragShape :=
    Option.some.inj ((List.getElem?_eq_getElem hi).symm.trans h0)
  have happ := ((C4_drag_move c4St1 ⟨200, 150⟩ "s1" hguard hdrag hid).2 0 hi).1
    (by rw [h00]; rfl)
  rw [happ, h00, hdown]
  norm_num [dragShape]

/-- C6 amended: `addShape('circle')` always appends a shape with radius 30,
the active page id, and id `uid('shape')`; two calls receive distinct ids
whenever their millisecond timestamps or their random draws differ — but two
calls in the same millisecond with the same random draw collide, so ids are
not unconditionally fresh. -/
theorem C6_addShape_circle_ids :
    (∀ (pg : String) (t r : Nat) (rx ry : ℚ),
      (addShape "circle" pg t r rx ry).radius = some 30 ∧
      (addShape "circle" pg t r rx ry).pageId = pg ∧
      (addShape "circle" pg t r rx ry).id = uid "shape" t r) ∧
    (∀ t1 r1 t2 r2 : Nat, (t1, r1) ≠ (t2, r2) →
      uid "shape" t1 r1 ≠ uid "shape" t2 r2) := by
  constructor
  · intro pg t r rx ry
    exact ⟨rfl, rfl, rfl⟩
  · intro t1 r1 t2 r2 hne heq
    obtain ⟨ht, hr⟩ := uid_shape_inj heq
    exact hne (by rw [ht, hr])

/-- C6 counterexample: two distinct `addShape('circle')` calls made in the
same millisecond (clock reading 5) with the same random draw (7) append two
shapes carrying the same id `shape_5_7` — the id is reused, refuting the
unconditional freshness claim. -/
theorem C6_counterexample :
    ((addShapeAction (addShapeAction emptySt "circle" 5 7 0 0).1
        "circle" 5 7 0 0).1.shapes.map Shape.id) =
      ["shape_5_7", "shape_5_7"] := by
  have h5 : natRepr 5 = "5" := by rw [natRepr, natChars]; rfl
  have h7 : natRepr 7 = "7" := by rw [natRepr, natChars]; rfl
  have huid : uid "shape" 5 7 = "shape_5_7" := by rw [uid, h5, h7]; rfl
  simp [addShapeAction, addShape, emptySt, huid]

/-- C6 witness: a concrete circle gets radius 30, and calls with different
random draws in the same millisecond get different ids. -/
theorem C6_witness :
    (addShape "circle" "page_1" 3 4 0 0).radius = some 30 ∧
    uid "shape" 3 4 ≠ uid "shape" 3 5 :=
  ⟨(C6_addShape_circle_ids.1 "page_1" 3 4 0 0).1,
   C6_addShape_circle_ids.2 3 4 3 5 (by decide)⟩

/-- C9 amended: quick-add populates the variant-specific fields actually
stored by the code — radius 30 for circle, second endpoint for line/arrow,
content and font size for text — plus a fresh id and the active page id; a
quick-added rectangle carries NO width, height or color fields, and the 60 by
40 box and fill color defaults are supplied at use time by the renderer (and
hit-test), as the `shapeCmds` conjunct shows. -/
theorem C9_quickadd_fields (ty pg : String) (t r : Nat) (rx ry : ℚ) :
    (addShape ty pg t r rx ry).id = uid "shape" t r ∧
    (addShape ty pg t r rx ry).pageId = pg ∧
    (ty = "circle" → (addShape ty pg t r rx ry).radius = some 30) ∧
    (ty = "line" ∨ ty = "arrow" →
      (addShape ty pg t r rx ry).x2 = some ((addShape ty pg t r rx ry).x + 80) ∧
      (addShape ty pg t r rx ry).y2 = some ((addShape ty pg t r rx ry).y + 0)) ∧
    (ty = "text" → (addShape ty pg t r rx ry).content = some "Text" ∧
      (addShape ty pg t r rx ry).fontSize = some 16) ∧
    (ty = "rectangle" →
      (addShape ty pg t r rx ry).width = none ∧
      (addShape ty pg t r rx ry).height = none ∧
      (addShape ty pg t r rx ry).color = none ∧
      (∀ p : Point, shapeContains p (addShape ty pg t r rx ry) =
        decide ((addShape ty pg t r rx ry).x ≤ p.x ∧
                p.x ≤ (addShape ty pg t r rx ry).x + 60 ∧
                (addShape ty pg t r rx ry).y ≤ p.y ∧
                p.y ≤ (addShape ty pg t r rx ry).y + 40)) ∧
      shapeCmds (addShape ty pg t r rx ry) =
        [DrawCmd.setFill "rgba(0,0,0,0.05)",
         DrawCmd.fillRect 0 0 60 40, DrawCmd.strokeRect 0 0 60 40]) := by
  refine ⟨?_, ?_, fun h => ?_, fun h => ?_, fun h => ?_, fun h => ?_⟩
  · simp only [addShape]
    split_ifs <;> rfl
  · simp only [addShape]
    split_ifs <;> rfl
  · subst h; rfl
  · rcases h with h | h <;> subst h <;> exact ⟨rfl, rfl⟩
  · subst h; exact ⟨rfl, rfl⟩
  · subst h; exact ⟨rfl, rfl, rfl, fun p => rfl, rfl⟩

/-- C9 counterexample: a quick-added rectangle does not carry width = 60,
height = 40 or any fill color — all three fields are absent on the
constructed shape, refuting the claim that construction populates them. -/
theorem C9_counterexample :
    (addShape "rectangle" "page_1" 5 7 0 0).width = none ∧
    (addShape "rectangle" "page_1" 5 7 0 0).height = none ∧
    (addShape "rectangle" "page_1" 5 7 0 0).color = none :=
  ⟨rfl, rfl, rfl⟩

/-- C9 witness: a concrete quick-added circle carries radius 30 and a concrete
quick-added rectangle carries no width field. -/
theorem C9_witness :
    (addShape "circle" "page_1" 3 4 0 0).radius = some 30 ∧
    (addShape "rectangle" "page_1" 3 4 0 0).width = none :=
  ⟨(C9_quickadd_fields "circle" "page_1" 3 4 0 0).2.2.1 rfl,
   ((C9_quickadd_fields "rectangle" "page_1" 3 4 0 0).2.2.2.2.2 rfl).1⟩
